import Mathlib

/-!
# Verification of the Open Bus Stride QGIS plugin core pipeline

A shallow embedding of the data-enrichment/join pipeline of the
qgis-open-bus-stride-plugin repository:

* `src/requests/stride_api_client.py` — the `fetch_data` response guard;
* `src/processing_provider/algorithms/enrich_with_routes.py` — key/date
  extraction, the batch reference fetch, and the enrichment join;
* `src/processing_provider/algorithms/get_locations.py` — the raw
  location fetch and per-item record mapper.

Host-side collaborators (the QGIS processing framework, Qt network
transport, CRS reprojection, progress/cancellation UI) are out of scope:
the network response is passed in as an `Except` value, coordinate
reprojection is modelled as the identity on coordinates, and all runs are
modelled uncancelled.  Python `None` and the QGIS `NULL` variant are both
modelled by `Value.vNull`.
-/

set_option maxRecDepth 4000

/-- A Qt timestamp (`QDateTime`) modelled by its calendar fields plus the
minute of day.  Chronological comparison is modelled through the radix
encoding `DT.key`, which is order-faithful for in-range calendar values. -/
structure DT where
  year : Nat
  month : Nat
  day : Nat
  minuteOfDay : Nat
deriving DecidableEq, Repr

/-- Radix encoding of a timestamp, used to model `QDateTime` ordering. -/
def DT.key (d : DT) : Nat :=
  ((d.year * 13 + d.month) * 32 + d.day) * 1441 + d.minuteOfDay

/-- Model of `QDateTime` strict chronological order (Python `<`). -/
def DT.ltb (a b : DT) : Bool := decide (a.key < b.key)

/-- Model of `QDateTime` non-strict chronological order. -/
def DT.leb (a b : DT) : Bool := decide (a.key ≤ b.key)

/-- Zero-padded two-digit rendering, as in Qt format `MM` / `dd`. -/
def pad2 (n : Nat) : String := if n < 10 then "0" ++ toString n else toString n

/-- Zero-padded four-digit rendering, as in Qt format `yyyy`. -/
def pad4 (n : Nat) : String :=
  if n < 10 then "000" ++ toString n
  else if n < 100 then "00" ++ toString n
  else if n < 1000 then "0" ++ toString n
  else toString n

/-- Model of `QDateTime.toString(yyyy-MM-dd)`. -/
def fmtDate (d : DT) : String :=
  pad4 d.year ++ "-" ++ pad2 d.month ++ "-" ++ pad2 d.day

/-- A scalar attribute value: a Python/QVariant scalar.  Both Python `None`
and the QGIS `NULL` variant are modelled as `vNull`. -/
inductive Value where
  | vNull
  | vBool (b : Bool)
  | vInt (n : ℤ)
  | vFloat (q : ℚ)
  | vStr (s : String)
  | vDT (d : DT)
deriving DecidableEq, Repr

/-- Model of Python `str(...)` on the scalar values we model (`str(None)`
is the string `None`; float and QDateTime renderings are schematic, no
claim inspects them). -/
def pyStr : Value → String
  | Value.vNull => "None"
  | Value.vBool b => if b then "True" else "False"
  | Value.vInt n => toString n
  | Value.vFloat q => toString q
  | Value.vStr s => s
  | Value.vDT d => "QDateTime(" ++ fmtDate d ++ ")"

/-- Model of Python `int(...)` returning `none` where CPython raises
`ValueError`/`TypeError` (an integer-literal string succeeds, `None`,
timestamps and non-numeric strings fail, floats truncate toward zero). -/
def pyInt? : Value → Option ℤ
  | Value.vInt n => some n
  | Value.vBool b => some (if b then 1 else 0)
  | Value.vFloat q => some (Int.tdiv q.num q.den)
  | Value.vStr s => s.trim.toInt?
  | _ => none

/-- Model of Python decimal-string parsing for `float(...)` (plain decimal
literals with optional sign and fraction part). -/
def parseDecimal? (s : String) : Option ℚ :=
  let t := s.trim
  let sgn : ℚ := if t.startsWith "-" then -1 else 1
  let u := if t.startsWith "-" ∨ t.startsWith "+" then t.drop 1 else t
  match u.splitOn "." with
  | [a] =>
    match a.toNat? with
    | some n => some (sgn * n)
    | none => none
  | [a, b] =>
    if a.isEmpty ∧ b.isEmpty then none
    else
      match (if a.isEmpty then some 0 else a.toNat?),
            (if b.isEmpty then some 0 else b.toNat?) with
      | some n, some f => some (sgn * ((n : ℚ) + (f : ℚ) / ((10 : ℚ) ^ b.length)))
      | _, _ => none
  | _ => none

/-- Model of Python `float(...)` returning `none` where CPython raises. -/
def pyFloat? : Value → Option ℚ
  | Value.vInt n => some (n : ℚ)
  | Value.vBool b => some (if b then 1 else 0)
  | Value.vFloat q => some q
  | Value.vStr s => parseDecimal? s
  | _ => none

/-- A parsed JSON object / API row: an ordered mapping from field name to
scalar value (JSON `null` is stored as `vNull`). -/
abbrev Record := List (String × Value)

/-- Model of Python `dict.get(k)` (no default): returns `none` both when
the key is absent and when the stored value is JSON null / `None`. -/
def Record.pyGet (r : Record) (k : String) : Option Value :=
  match r with
  | [] => none
  | p :: rest =>
    if p.1 = k then
      match p.2 with
      | Value.vNull => none
      | v => some v
    else Record.pyGet rest k

/-- Model of Python `dict.get(k, d)`: the stored value (even if null) when
the key is present, otherwise the default. -/
def Record.pyGetD (r : Record) (k : String) (d : Value) : Value :=
  match r with
  | [] => d
  | p :: rest => if p.1 = k then p.2 else Record.pyGetD rest k d

/-- Drop every binding of the given key from a record. -/
def Record.eraseKey (r : Record) (k : String) : Record :=
  r.filter (fun p => !(decide (p.1 = k)))

/-- One feature: an attribute row (aligned with the layer schema) plus an
optional 2D point geometry.  CRS handling is host-side and not modelled. -/
structure Feature where
  attrs : List Value
  geom : Option (ℚ × ℚ)
deriving DecidableEq, Repr

/-- A vector layer: an ordered field-name schema plus its features. -/
structure Layer where
  fields : List String
  features : List Feature
deriving DecidableEq, Repr

/-- Model of `QgsFields.indexFromName`: index of the first field with the
given name, `none` standing for the `-1` sentinel. -/
def indexFromName (fields : List String) (name : String) : Option Nat :=
  match fields with
  | [] => none
  | f :: rest =>
    if f = name then some 0 else (indexFromName rest name).map (· + 1)

/-- Model of `feature[name]` / `feature.attribute(name)` against a layer
schema; a missing field or short attribute row reads as null. -/
def Feature.get (ft : Feature) (fields : List String) (name : String) : Value :=
  match indexFromName fields name with
  | some i => ft.attrs.getD i Value.vNull
  | none => Value.vNull

/-- Top-level shape of a parsed JSON response body. -/
inductive JsonTop where
  | jarr (items : List Record)
  | jobj (r : Record)
  | jscalar (v : Value)
deriving DecidableEq, Repr

/-- `StrideAPIClient.fetch_data`: the transport/parse outcome is passed in
as an `Except` (an `error` models a network error, a non-200 status, or a
JSON parse failure raised by `_execute_request`).  A successful response
that is not a JSON array is replaced by the empty list (with an info
message); exceptions propagate to the caller. -/
def fetch_data (resp : Except String JsonTop) : Except String (List Record) :=
  match resp with
  | Except.error e => Except.error e
  | Except.ok (JsonTop.jarr xs) => Except.ok xs
  | Except.ok _ => Except.ok []

/-! ## The reference map (`route_data_map`, a Python dict) -/

/-- `route_data_map`: insertion-ordered bindings from a response key to a
reference record or the `None` not-found marker. -/
abbrev RouteMap := List (Value × Option Record)

/-- Model of Python dict lookup `d[k]` / `k in d` support: the first (and
by construction only) binding of a key. -/
def rmGet (m : RouteMap) (k : Value) : Option (Option Record) :=
  match m with
  | [] => none
  | p :: rest => if p.1 = k then some p.2 else rmGet rest k

/-- Model of Python dict assignment `d[k] = v`: replace the binding in
place if the key is present, else append it. -/
def rmSet (m : RouteMap) (k : Value) (r : Option Record) : RouteMap :=
  match m with
  | [] => [(k, r)]
  | p :: rest => if p.1 = k then (k, r) :: rest else p :: rmSet rest k r

/-- Model of `if k not in d: d[k] = v`: append the binding only when the
key is absent. -/
def rmInsertNew (m : RouteMap) (k : Value) (r : Option Record) : RouteMap :=
  match m with
  | [] => [(k, r)]
  | p :: rest => if p.1 = k then p :: rest else p :: rmInsertNew rest k r

/-- `d[k] = None` for every key of a list, in order (the error and
empty-response branches of `_fetch_route_data`). -/
def rmSetAll (ks : List ℤ) (m : RouteMap) : RouteMap :=
  ks.foldl (fun acc k => rmSet acc (Value.vInt k) none) m

/-! ## `EnrichWithRoutes` (enrich_with_routes.py) -/

/-- Scalar type tags of the declared QVariant field types. -/
inductive QVariantType where
  | tInt
  | tLongLong
  | tDouble
  | tString
  | tDateTime
deriving DecidableEq, Repr

/-- `EnrichWithRoutes.ROUTE_FIELDS`: the declared extra route fields, in
declaration order. -/
def routeFields : List (String × QVariantType) :=
  [("date", QVariantType.tString),
   ("siri_line_ref", QVariantType.tInt),
   ("siri_operator_ref", QVariantType.tInt),
   ("route_short_name", QVariantType.tString),
   ("route_long_name", QVariantType.tString),
   ("route_mkt", QVariantType.tString),
   ("route_direction", QVariantType.tString),
   ("route_alternative", QVariantType.tString),
   ("route_desc", QVariantType.tString),
   ("agency_name", QVariantType.tString),
   ("route_type", QVariantType.tString)]

/-- The declared extra route field names, in declaration order. -/
def routeFieldNames : List String := routeFields.map Prod.fst

/-- `EnrichWithRoutes.GTFS_FIELD_MAP`: output field name to API key. -/
def gtfsFieldMap : List (String × String) :=
  [("siri_line_ref", "line_ref"), ("siri_operator_ref", "operator_ref")]

/-- `GTFS_FIELD_MAP.get(field_name, field_name)`. -/
def gtfsApiKey (n : String) : String :=
  match gtfsFieldMap.find? (fun p => decide (p.1 = n)) with
  | some p => p.2
  | none => n

/-- The growing-schema append loop shared by `_create_output_sink` and
`_enrich_features` (lines 342-347 and 375-382): fold over `ROUTE_FIELDS`,
appending each name absent from the accumulated schema, and record the
names actually appended. -/
def newFieldsAux (fields : List String) : List String × List String :=
  routeFieldNames.foldl
    (fun acc n =>
      if indexFromName acc.1 n = none then (acc.1 ++ [n], acc.2 ++ [n]) else acc)
    (fields, [])

/-- The enriched output schema (`output_fields` of `_create_output_sink`). -/
def outputFields (fields : List String) : List String := (newFieldsAux fields).1

/-- The names actually appended (`new_route_fields` of `_enrich_features`). -/
def newRouteFields (fields : List String) : List String := (newFieldsAux fields).2

/-- Lines 407-419 of `_enrich_features`: value of one appended route field
for a matched reference record.  `route_desc` is computed from the three
sub-fields joined with `-` (f-string semantics, defaults the empty string
for an absent key); any other field is read under its API key, with `None`
replaced by the QGIS `NULL`. -/
def routeFieldValue (routeData : Record) (fieldName : String) : Value :=
  if fieldName = "route_desc" then
    Value.vStr
      (pyStr (Record.pyGetD routeData "route_mkt" (Value.vStr "")) ++ "-" ++
       pyStr (Record.pyGetD routeData "route_direction" (Value.vStr "")) ++ "-" ++
       pyStr (Record.pyGetD routeData "route_alternative" (Value.vStr "")))
  else
    match Record.pyGet routeData (gtfsApiKey fieldName) with
    | some v => v
    | none => Value.vNull

/-- Python truthiness of `route_data` in `if route_data:`: `None` and the
empty dict are both falsy. -/
def truthyRecord : Option Record → Option Record
  | some r => if r.isEmpty then none else some r
  | none => none

/-- The per-feature body of the `_enrich_features` loop (lines 385-424,
uncancelled): copy the original attributes and geometry, resolve the
feature's `line_ref` against the route map, and append one value per new
route field. -/
def enrichOne (fields : List String) (newFields : List String)
    (lineRefField : String) (m : RouteMap) (ft : Feature) : Feature :=
  let lineRef := Feature.get ft fields lineRefField
  let routeData : Option Record :=
    if lineRef = Value.vNull then none
    else
      match pyInt? lineRef with
      | some k => (rmGet m (Value.vInt k)).join
      | none => none
  let rd := truthyRecord routeData
  { attrs :=
      ft.attrs ++ newFields.map (fun fn =>
        match rd with
        | some r => routeFieldValue r fn
        | none => Value.vNull),
    geom := ft.geom }

/-- `_enrich_features` (uncancelled): one output feature per input
feature, in input order. -/
def enrichFeatures (layer : Layer) (lineRefField : String) (m : RouteMap) :
    List Feature :=
  layer.features.map
    (enrichOne layer.fields (newRouteFields layer.fields) lineRefField m)

/-- The candidate timestamp field names of
`_extract_unique_line_refs_and_dates`, in priority order. -/
def dateFieldCandidates : List String :=
  ["recorded_at", "begin", "end", "scheduled_start"]

/-- Lines 223-236: the timestamp one feature contributes — the first
candidate field that is present in the layer schema and holds a non-null
`QDateTime` for this feature (later candidates are skipped). -/
def featureDate (fields : List String) (ft : Feature) : Option DT :=
  dateFieldCandidates.findSome? (fun df =>
    match indexFromName fields df with
    | none => none
    | some i =>
      match ft.attrs.getD i Value.vNull with
      | Value.vDT d => some d
      | _ => none)

/-- Lines 213-221: the key one feature contributes to `unique_refs` — its
non-null `line_ref` value when integer coercion succeeds. -/
def extractKey (fields : List String) (f : String) (ft : Feature) : Option ℤ :=
  let v := Feature.get ft fields f
  if v = Value.vNull then none else pyInt? v

/-- Lines 213-221: the warning one feature contributes — the reported
`Invalid line_ref value` message when its non-null key fails coercion. -/
def extractWarn (fields : List String) (f : String) (ft : Feature) :
    Option String :=
  let v := Feature.get ft fields f
  if v = Value.vNull then none
  else
    match pyInt? v with
    | some _ => none
    | none => some ("Invalid line_ref value: " ++ pyStr v)

/-- `if min_date is None or date_value < min_date`. -/
def updMin (o : Option DT) (d : DT) : Option DT :=
  some (match o with
        | none => d
        | some m => if DT.ltb d m then d else m)

/-- `if max_date is None or date_value > max_date`. -/
def updMax (o : Option DT) (d : DT) : Option DT :=
  some (match o with
        | none => d
        | some m => if DT.ltb m d then d else m)

/-- Loop state of `_extract_unique_line_refs_and_dates`. -/
structure ExtractAcc where
  refs : Finset ℤ
  warnings : List String
  minD : Option DT
  maxD : Option DT

/-- One iteration of the extraction loop (lines 209-236, uncancelled). -/
def extractStep (fields : List String) (f : String) (acc : ExtractAcc)
    (ft : Feature) : ExtractAcc :=
  { refs :=
      match extractKey fields f ft with
      | some k => insert k acc.refs
      | none => acc.refs,
    warnings :=
      match extractWarn fields f ft with
      | some w => acc.warnings ++ [w]
      | none => acc.warnings,
    minD :=
      match featureDate fields ft with
      | none => acc.minD
      | some d => updMin acc.minD d,
    maxD :=
      match featureDate fields ft with
      | none => acc.maxD
      | some d => updMax acc.maxD d }

/-- Result of `_extract_unique_line_refs_and_dates`, together with the
reported warnings (`reportError`) and informational notes (`pushInfo`). -/
structure ExtractResult where
  refs : Finset ℤ
  dateFrom : String
  dateTo : String
  warnings : List String
  notes : List String
deriving DecidableEq

/-- `_extract_unique_line_refs_and_dates` (lines 185-252, uncancelled):
validate the key field, fold the extraction step over all features, and
format the date bounds, falling back to the current date when no valid
timestamp was found. -/
def extractUniqueLineRefsAndDates (layer : Layer) (fieldName : String)
    (today : String) : Except String ExtractResult :=
  match indexFromName layer.fields fieldName with
  | none =>
    Except.error ("Field \"" ++ fieldName ++ "\" not found in input layer")
  | some _ =>
    let acc := layer.features.foldl (extractStep layer.fields fieldName)
      { refs := ∅, warnings := [], minD := none, maxD := none }
    match acc.minD, acc.maxD with
    | some a, some b =>
      Except.ok
        { refs := acc.refs, dateFrom := fmtDate a, dateTo := fmtDate b,
          warnings := acc.warnings, notes := [] }
    | _, _ =>
      Except.ok
        { refs := acc.refs, dateFrom := today, dateTo := today,
          warnings := acc.warnings,
          notes := ["No valid dates found in data, using today\x27s date"] }

/-- Lines 294-303 of `_fetch_route_data`: build the map from the response
records — first occurrence of each non-null `line_ref` key wins. -/
def buildRouteMapFromResponse (data : List Record) : RouteMap :=
  data.foldl
    (fun m route =>
      match Record.pyGet route "line_ref" with
      | some v => rmInsertNew m v (some route)
      | none => m)
    []

/-- Lines 305-311: mark every requested key with no stored record as
not-found. -/
def addMissingRefs (m : RouteMap) (ks : List ℤ) : RouteMap :=
  ks.foldl (fun acc k => rmInsertNew acc (Value.vInt k) none) m

/-- `_fetch_route_data` (lines 254-328): the single batch fetch outcome is
passed in as `resp`; returns the built route map together with the
reported error description, if any.  On a fetch failure or an empty
response every presented key is assigned the `None` marker; the presented
key set is iterated in ascending order (Python set iteration order is
unspecified; the request serialization sorts ascending). -/
def fetchRouteData (lineRefs : Finset ℤ) (resp : Except String JsonTop) :
    RouteMap × Option String :=
  match fetch_data resp with
  | Except.error e =>
    (rmSetAll (lineRefs.sort (· ≤ ·)) [],
     some ("Error fetching route data: " ++ e))
  | Except.ok data =>
    if data.isEmpty then (rmSetAll (lineRefs.sort (· ≤ ·)) [], none)
    else
      (addMissingRefs (buildRouteMapFromResponse data)
        (lineRefs.sort (· ≤ ·)), none)

/-- `EnrichWithRoutes.processAlgorithm` (lines 133-183), with the host
parameter plumbing and sink creation abstracted away: extract, fail on an
empty key set, fetch, then enrich. -/
def processAlgorithmEnrich (layer : Layer) (lineRefField : String)
    (resp : Except String JsonTop) (today : String) :
    Except String (List Feature) :=
  match extractUniqueLineRefsAndDates layer lineRefField today with
  | Except.error e => Except.error e
  | Except.ok res =>
    if res.refs = ∅ then
      Except.error "No valid line references found in the input layer"
    else
      Except.ok (enrichFeatures layer lineRefField
        (fetchRouteData res.refs resp).1)

/-! ## `GetLocations` (get_locations.py) -/

/-- `GetLocations.FIELD_DEFINITIONS`: the 17 declared output fields. -/
def fieldDefinitions : List (String × QVariantType) :=
  [("id", QVariantType.tLongLong),
   ("snapshot_id", QVariantType.tLongLong),
   ("ride_stop_id", QVariantType.tLongLong),
   ("recorded_at", QVariantType.tDateTime),
   ("lon", QVariantType.tDouble),
   ("lat", QVariantType.tDouble),
   ("bearing", QVariantType.tInt),
   ("velocity", QVariantType.tInt),
   ("dist_from_start", QVariantType.tInt),
   ("dist_from_stop", QVariantType.tDouble),
   ("siri_route_id", QVariantType.tInt),
   ("siri_line_ref", QVariantType.tInt),
   ("siri_operator_ref", QVariantType.tInt),
   ("siri_ride_id", QVariantType.tLongLong),
   ("journey_ref", QVariantType.tString),
   ("scheduled_start", QVariantType.tDateTime),
   ("vehicle_ref", QVariantType.tString)]

/-- `GetLocations.KEY_MAP`, in dict insertion order. -/
def keyMapPairs : List (String × String) :=
  [("siri_snapshot_id", "snapshot_id"),
   ("siri_ride_stop_id", "ride_stop_id"),
   ("recorded_at_time", "recorded_at"),
   ("distance_from_journey_start", "dist_from_start"),
   ("distance_from_siri_ride_stop_meters", "dist_from_stop"),
   ("siri_snapshot__snapshot_id", "snapshot_id"),
   ("siri_route__id", "siri_route_id"),
   ("siri_route__line_ref", "siri_line_ref"),
   ("siri_route__operator_ref", "siri_operator_ref"),
   ("siri_ride__id", "siri_ride_id"),
   ("siri_ride__journey_ref", "journey_ref"),
   ("siri_ride__scheduled_start_time", "scheduled_start"),
   ("siri_ride__vehicle_ref", "vehicle_ref")]

/-- Lines 387-390: the wire key a schema field is read from — the first
`KEY_MAP` entry whose value is the field name, defaulting to the field
name itself. -/
def originalKey (name : String) : String :=
  match keyMapPairs.find? (fun p => decide (p.2 = name)) with
  | some p => p.1
  | none => name

/-- Model of `QDateTime.fromString(s, Qt.DateFormat.ISODate)`: parse the
leading `yyyy-MM-dd` and, when present, `HH:mm` of an ISO-8601 string. -/
def parseISODT (s : String) : Option DT :=
  match (s.take 10).splitOn "-" with
  | [ys, ms, ds] =>
    match ys.toNat?, ms.toNat?, ds.toNat? with
    | some y, some m, some d =>
      let minute :=
        match ((s.drop 11).take 5).splitOn ":" with
        | [hs, mins] =>
          match hs.toNat?, mins.toNat? with
          | some h, some mi => h * 60 + mi
          | _, _ => 0
        | _ => 0
      some { year := y, month := m, day := d, minuteOfDay := minute }
    | _, _, _ => none
  | _ => none

/-- Lines 395-397: a DateTime-typed attribute is parsed from its ISO
string; an unparsable or non-string value reads as an invalid (null)
timestamp. -/
def qdtFromISO (val : Value) : Value :=
  match val with
  | Value.vStr s =>
    match parseISODT s with
    | some d => Value.vDT d
    | none => Value.vNull
  | _ => Value.vNull

/-- `GetLocations._create_feature` (lines 353-402): `none` when the item
lacks `lon` or `lat` or their float coercion fails; otherwise a point
feature (reprojection is host-side, coordinates are kept as received)
whose attributes are read field-by-field under the reverse key map. -/
def createFeature (item : Record) : Option Feature :=
  match Record.pyGet item "lon", Record.pyGet item "lat" with
  | some lonV, some latV =>
    match pyFloat? lonV, pyFloat? latV with
    | some x, some y =>
      some
        { geom := some (x, y),
          attrs :=
            fieldDefinitions.map (fun fd =>
              match Record.pyGet item (originalKey fd.1) with
              | none => Value.vNull
              | some val =>
                if fd.2 = QVariantType.tDateTime then qdtFromISO val else val) }
    | _, _ => none
  | _, _ => none

/-- `GetLocations._process_features` (lines 319-351, uncancelled): map
each API item to a feature, silently skipping the invalid ones. -/
def processFeatures (data : List Record) : List Feature :=
  data.filterMap createFeature

/-- `GetLocations.processAlgorithm` (lines 202-222), with parameter
plumbing and the sink abstracted away: fetch, return no output layer on an
empty result, otherwise process the items. -/
def getLocationsRun (resp : Except String JsonTop) :
    Except String (Option (List Feature)) :=
  match fetch_data resp with
  | Except.error e => Except.error e
  | Except.ok data =>
    if data.isEmpty then Except.ok none
    else Except.ok (some (processFeatures data))

/-! ## Helper lemmas -/

theorem indexFromName_eq_none_iff (fields : List String) (n : String) :
    indexFromName fields n = none ↔ n ∉ fields := by
  induction fields with
  | nil => simp [indexFromName]
  | cons f rest ih =>
    by_cases h : f = n
    · simp [indexFromName, h]
    · simp [indexFromName, h, Option.map_eq_none', ih, Ne.symm h]


theorem rmGet_rmSet (m : RouteMap) (k : Value) (r : Option Record) (v : Value) :
    rmGet (rmSet m k r) v = if v = k then some r else rmGet m v := by
  induction m with
  | nil =>
    simp only [rmSet, rmGet]
    by_cases h : v = k
    · subst h; simp
    · simp [h, Ne.symm h]
  | cons p rest ih =>
    simp only [rmSet]
    by_cases hpk : p.1 = k
    · simp only [if_pos hpk, rmGet]
      by_cases hv : v = k
      · subst hv; simp [hpk]
      · have h2 : ¬ p.1 = v := fun hh => hv (hh.symm.trans hpk)
        simp [hv, Ne.symm hv, h2]
    · simp only [if_neg hpk, rmGet, ih]
      by_cases hpv : p.1 = v
      · have hvk : ¬ v = k := fun hh => hpk (hpv.trans hh)
        simp [hpv, hvk]
      · simp [hpv]

theorem rmGet_rmInsertNew (m : RouteMap) (k : Value) (r : Option Record)
    (v : Value) :
    rmGet (rmInsertNew m k r) v =
      match rmGet m v with
      | some x => some x
      | none => if v = k then some r else none := by
  induction m with
  | nil =>
    simp only [rmInsertNew, rmGet]
    by_cases h : v = k
    · subst h; simp
    · simp [h, Ne.symm h]
  | cons p rest ih =>
    simp only [rmInsertNew]
    by_cases hpk : p.1 = k
    · simp only [if_pos hpk, rmGet]
      by_cases hpv : p.1 = v
      · simp [hpv]
      · have hvk : ¬ v = k := fun hh => hpv (hpk.trans hh.symm)
        simp only [if_neg hpv, if_neg hvk]
        cases rmGet rest v <;> rfl
    · simp only [if_neg hpk, rmGet, ih]
      by_cases hpv : p.1 = v
      · simp [hpv]
      · simp [hpv]

theorem rmGet_rmSetAll (ks : List ℤ) (m : RouteMap) (v : Value) :
    rmGet (rmSetAll ks m) v =
      if v ∈ ks.map Value.vInt then some none else rmGet m v := by
  induction ks generalizing m with
  | nil => simp [rmSetAll]
  | cons k rest ih =>
    simp only [rmSetAll, List.foldl_cons] at *
    rw [ih]
    by_cases hv : v ∈ rest.map Value.vInt
    · simp [hv]
    · by_cases hk : v = Value.vInt k
      · simp [hv, hk, rmGet_rmSet]
      · simp [hv, hk, rmGet_rmSet]

theorem rmGet_addMissingRefs (ks : List ℤ) (m : RouteMap) (v : Value) :
    rmGet (addMissingRefs m ks) v =
      match rmGet m v with
      | some x => some x
      | none => if v ∈ ks.map Value.vInt then some none else none := by
  induction ks generalizing m with
  | nil => simp [addMissingRefs]; cases rmGet m v <;> rfl
  | cons k rest ih =>
    simp only [addMissingRefs, List.foldl_cons] at *
    rw [ih, rmGet_rmInsertNew]
    cases h : rmGet m v with
    | some x => rfl
    | none =>
      by_cases hk : v = Value.vInt k
      · simp [hk]
      · simp only [if_neg hk]
        by_cases hv : v ∈ rest.map Value.vInt
        · simp [hv, hk]
        · simp [hv, hk]

theorem rmGet_buildRouteMapFromResponse_aux (data : List Record)
    (m : RouteMap) (v : Value) :
    rmGet (data.foldl
      (fun acc route =>
        match Record.pyGet route "line_ref" with
        | some w => rmInsertNew acc w (some route)
        | none => acc) m) v =
      match rmGet m v with
      | some x => some x
      | none =>
        (data.find? (fun r => decide (Record.pyGet r "line_ref" = some v))).map
          some := by
  induction data generalizing m with
  | nil => simp; cases rmGet m v <;> rfl
  | cons r rest ih =>
    simp only [List.foldl_cons]
    cases hk : Record.pyGet r "line_ref" with
    | none =>
      rw [ih]
      cases rmGet m v with
      | some x => rfl
      | none =>
        rw [List.find?_cons_of_neg]
        simp [hk]
    | some w =>
      rw [ih, rmGet_rmInsertNew]
      cases hm : rmGet m v with
      | some x => rfl
      | none =>
        by_cases hvw : v = w
        · subst hvw
          simp only [if_pos rfl]
          rw [List.find?_cons_of_pos]
          · rfl
          · simp [hk]
        · simp only [if_neg hvw]
          rw [List.find?_cons_of_neg]
          simp only [hk, decide_eq_true_eq, Option.some.injEq]
          exact fun hh => hvw hh.symm

theorem rmGet_buildRouteMapFromResponse (data : List Record) (v : Value) :
    rmGet (buildRouteMapFromResponse data) v =
      (data.find? (fun r => decide (Record.pyGet r "line_ref" = some v))).map
        some := by
  have h := rmGet_buildRouteMapFromResponse_aux data [] v
  simpa [buildRouteMapFromResponse, rmGet] using h

theorem mem_sortMap_iff (refs : Finset ℤ) (v : Value) :
    v ∈ (refs.sort (· ≤ ·)).map Value.vInt ↔ ∃ k ∈ refs, v = Value.vInt k := by
  simp only [List.mem_map, Finset.mem_sort]
  constructor
  · rintro ⟨k, hk, rfl⟩; exact ⟨k, hk, rfl⟩
  · rintro ⟨k, hk, rfl⟩; exact ⟨k, hk, rfl⟩

theorem extractFold_refs_mem (fields : List String) (f : String)
    (feats : List Feature) (acc : ExtractAcc) (x : ℤ) :
    x ∈ (feats.foldl (extractStep fields f) acc).refs ↔
      x ∈ acc.refs ∨ ∃ ft ∈ feats, extractKey fields f ft = some x := by
  induction feats generalizing acc with
  | nil => simp
  | cons ft rest ih =>
    simp only [List.foldl_cons]
    rw [ih]
    cases hk : extractKey fields f ft with
    | none =>
      have hr : (extractStep fields f acc ft).refs = acc.refs := by
        simp [extractStep, hk]
      rw [hr]
      constructor
      · rintro (h | ⟨w, hw, hkw⟩)
        · exact Or.inl h
        · exact Or.inr ⟨w, List.mem_cons_of_mem _ hw, hkw⟩
      · rintro (h | ⟨w, hw, hkw⟩)
        · exact Or.inl h
        · rcases List.mem_cons.mp hw with rfl | hw
          · rw [hk] at hkw; exact absurd hkw (by simp)
          · exact Or.inr ⟨w, hw, hkw⟩
    | some k =>
      have hr : (extractStep fields f acc ft).refs = insert k acc.refs := by
        simp [extractStep, hk]
      rw [hr]
      constructor
      · rintro (h | ⟨w, hw, hkw⟩)
        · rcases Finset.mem_insert.mp h with rfl | h
          · exact Or.inr ⟨ft, List.mem_cons_self _ _, hk⟩
          · exact Or.inl h
        · exact Or.inr ⟨w, List.mem_cons_of_mem _ hw, hkw⟩
      · rintro (h | ⟨w, hw, hkw⟩)
        · exact Or.inl (Finset.mem_insert.mpr (Or.inr h))
        · rcases List.mem_cons.mp hw with rfl | hw
          · rw [hk] at hkw
            have hx : k = x := by injection hkw
            subst hx
            exact Or.inl (Finset.mem_insert_self _ _)
          · exact Or.inr ⟨w, hw, hkw⟩

theorem extractFold_warnings (fields : List String) (f : String)
    (feats : List Feature) (acc : ExtractAcc) :
    (feats.foldl (extractStep fields f) acc).warnings =
      acc.warnings ++ feats.filterMap (extractWarn fields f) := by
  induction feats generalizing acc with
  | nil => simp
  | cons ft rest ih =>
    simp only [List.foldl_cons, ih, List.filterMap_cons]
    cases hw : extractWarn fields f ft with
    | none => simp [extractStep, hw]
    | some w => simp [extractStep, hw]

/-- The running-minimum invariant: `o` is a minimum of the timestamps seen
so far (`none` exactly when none were seen). -/
def MinSpec (o : Option DT) (ds : List DT) : Prop :=
  match o with
  | none => ds = []
  | some a => a ∈ ds ∧ ∀ x ∈ ds, DT.leb a x = true

/-- The running-maximum invariant. -/
def MaxSpec (o : Option DT) (ds : List DT) : Prop :=
  match o with
  | none => ds = []
  | some b => b ∈ ds ∧ ∀ x ∈ ds, DT.leb x b = true

theorem minSpec_upd (o : Option DT) (seen : List DT) (d : DT)
    (h : MinSpec o seen) : MinSpec (updMin o d) (seen ++ [d]) := by
  cases o with
  | none =>
    have hs : seen = [] := h
    subst hs
    simp [updMin, MinSpec, DT.leb]
  | some a =>
    obtain ⟨hmem, hall⟩ := h
    by_cases hlt : DT.ltb d a = true
    · have h1 : updMin (some a) d = some d := by simp [updMin, hlt]
      rw [h1]
      refine ⟨List.mem_append.mpr (Or.inr (by simp)), ?_⟩
      intro x hx
      rcases List.mem_append.mp hx with hx | hx
      · have h2 := hall x hx
        simp only [DT.leb, DT.ltb, decide_eq_true_eq] at *
        omega
      · simp only [List.mem_singleton] at hx
        subst hx
        simp [DT.leb]
    · have h1 : updMin (some a) d = some a := by simp [updMin, hlt]
      rw [h1]
      refine ⟨List.mem_append.mpr (Or.inl hmem), ?_⟩
      intro x hx
      rcases List.mem_append.mp hx with hx | hx
      · exact hall x hx
      · simp only [List.mem_singleton] at hx
        subst hx
        simp only [DT.leb, DT.ltb, decide_eq_true_eq] at *
        omega

theorem maxSpec_upd (o : Option DT) (seen : List DT) (d : DT)
    (h : MaxSpec o seen) : MaxSpec (updMax o d) (seen ++ [d]) := by
  cases o with
  | none =>
    have hs : seen = [] := h
    subst hs
    simp [updMax, MaxSpec, DT.leb]
  | some b =>
    obtain ⟨hmem, hall⟩ := h
    by_cases hlt : DT.ltb b d = true
    · have h1 : updMax (some b) d = some d := by simp [updMax, hlt]
      rw [h1]
      refine ⟨List.mem_append.mpr (Or.inr (by simp)), ?_⟩
      intro x hx
      rcases List.mem_append.mp hx with hx | hx
      · have h2 := hall x hx
        simp only [DT.leb, DT.ltb, decide_eq_true_eq] at *
        omega
      · simp only [List.mem_singleton] at hx
        subst hx
        simp [DT.leb]
    · have h1 : updMax (some b) d = some b := by simp [updMax, hlt]
      rw [h1]
      refine ⟨List.mem_append.mpr (Or.inl hmem), ?_⟩
      intro x hx
      rcases List.mem_append.mp hx with hx | hx
      · exact hall x hx
      · simp only [List.mem_singleton] at hx
        subst hx
        simp only [DT.leb, DT.ltb, decide_eq_true_eq] at *
        omega

theorem extractFold_dates (fields : List String) (f : String)
    (feats : List Feature) (acc : ExtractAcc) (seen : List DT)
    (hmin : MinSpec acc.minD seen) (hmax : MaxSpec acc.maxD seen) :
    MinSpec ((feats.foldl (extractStep fields f) acc).minD)
        (seen ++ feats.filterMap (featureDate fields)) ∧
      MaxSpec ((feats.foldl (extractStep fields f) acc).maxD)
        (seen ++ feats.filterMap (featureDate fields)) := by
  induction feats generalizing acc seen with
  | nil => simpa using ⟨hmin, hmax⟩
  | cons ft rest ih =>
    cases hd : featureDate fields ft with
    | none =>
      have h1 : (extractStep fields f acc ft).minD = acc.minD := by
        simp [extractStep, hd]
      have h2 : (extractStep fields f acc ft).maxD = acc.maxD := by
        simp [extractStep, hd]
      simp only [List.foldl_cons, List.filterMap_cons, hd]
      exact ih (extractStep fields f acc ft) seen (h1 ▸ hmin) (h2 ▸ hmax)
    | some d =>
      have h1 : (extractStep fields f acc ft).minD = updMin acc.minD d := by
        simp [extractStep, hd]
      have h2 : (extractStep fields f acc ft).maxD = updMax acc.maxD d := by
        simp [extractStep, hd]
      have hmin' : MinSpec (extractStep fields f acc ft).minD (seen ++ [d]) :=
        h1 ▸ minSpec_upd acc.minD seen d hmin
      have hmax' : MaxSpec (extractStep fields f acc ft).maxD (seen ++ [d]) :=
        h2 ▸ maxSpec_upd acc.maxD seen d hmax
      have hres := ih (extractStep fields f acc ft) (seen ++ [d]) hmin' hmax'
      simpa [List.foldl_cons, List.filterMap_cons, hd, List.append_assoc]
        using hres

theorem newFieldsAux_split (names : List String) (a b : List String) :
    ∃ t,
      (names.foldl
        (fun acc n =>
          if indexFromName acc.1 n = none then (acc.1 ++ [n], acc.2 ++ [n])
          else acc) (a, b)).1 = a ++ t ∧
      (names.foldl
        (fun acc n =>
          if indexFromName acc.1 n = none then (acc.1 ++ [n], acc.2 ++ [n])
          else acc) (a, b)).2 = b ++ t := by
  induction names generalizing a b with
  | nil => exact ⟨[], by simp, by simp⟩
  | cons n rest ih =>
    simp only [List.foldl_cons]
    by_cases h : indexFromName a n = none
    · simp only [h, if_true, reduceIte]
      obtain ⟨t, h1, h2⟩ := ih (a ++ [n]) (b ++ [n])
      exact ⟨[n] ++ t, by rw [h1, List.append_assoc], by rw [h2, List.append_assoc]⟩
    · simp only [h, if_false, reduceIte]
      exact ih a b

theorem outputFields_eq_append (fields : List String) :
    outputFields fields = fields ++ newRouteFields fields := by
  obtain ⟨t, h1, h2⟩ := newFieldsAux_split routeFieldNames fields []
  simp only [outputFields, newRouteFields, newFieldsAux]
  rw [h1, h2]
  simp

theorem newFieldsAux_fst_filter (names : List String) (hnd : names.Nodup)
    (a b : List String) :
    (names.foldl
      (fun acc n =>
        if indexFromName acc.1 n = none then (acc.1 ++ [n], acc.2 ++ [n])
        else acc) (a, b)).1 =
      a ++ names.filter (fun n => decide (n ∉ a)) := by
  induction names generalizing a b with
  | nil => simp
  | cons n rest ih =>
    obtain ⟨hn, hrest⟩ := List.nodup_cons.mp hnd
    simp only [List.foldl_cons]
    by_cases h : n ∈ a
    · have hnone : ¬ indexFromName a n = none := by
        rw [indexFromName_eq_none_iff]; simpa using h
      simp only [hnone, if_false, reduceIte]
      rw [ih hrest a b]
      rw [List.filter_cons]
      simp [h]
    · have hnone : indexFromName a n = none :=
        (indexFromName_eq_none_iff a n).mpr h
      simp only [hnone, if_true, reduceIte]
      rw [ih hrest (a ++ [n]) (b ++ [n])]
      have hcong :
          rest.filter (fun x => decide (x ∉ a ++ [n])) =
            rest.filter (fun x => decide (x ∉ a)) := by
        apply List.filter_congr
        intro x hx
        have hxn : x ≠ n := fun hh => hn (hh ▸ hx)
        simp [List.mem_append, hxn]
      rw [hcong, List.filter_cons]
      simp [h, List.append_assoc]

theorem routeFieldNames_nodup : routeFieldNames.Nodup := by decide

theorem outputFields_filter (fields : List String) :
    outputFields fields =
      fields ++ routeFieldNames.filter (fun n => decide (n ∉ fields)) := by
  simpa [outputFields, newFieldsAux] using
    newFieldsAux_fst_filter routeFieldNames routeFieldNames_nodup fields []

theorem map_const_eq_replicate {α β : Type} (l : List α) (b : β) :
    l.map (fun _ => b) = List.replicate l.length b := by
  induction l with
  | nil => rfl
  | cons x rest ih => simp [ih, List.replicate_succ]

theorem pyGetD_eraseKey (r : Record) (k k' : String) (h : ¬ k' = k)
    (d : Value) :
    Record.pyGetD (Record.eraseKey r k) k' d = Record.pyGetD r k' d := by
  induction r with
  | nil => rfl
  | cons p rest ih =>
    by_cases hp : p.1 = k
    · have hp' : ¬ p.1 = k' := fun hh => h (hh.symm.trans hp)
      have hL : Record.eraseKey (p :: rest) k = Record.eraseKey rest k := by
        simp [Record.eraseKey, List.filter_cons, hp]
      rw [hL, ih]
      conv_rhs => simp only [Record.pyGetD]
      rw [if_neg hp']
    · have hL : Record.eraseKey (p :: rest) k = p :: Record.eraseKey rest k := by
        simp [Record.eraseKey, List.filter_cons, hp]
      rw [hL]
      by_cases hpv : p.1 = k'
      · simp only [Record.pyGetD]
        rw [if_pos hpv, if_pos hpv]
      · simp only [Record.pyGetD]
        rw [if_neg hpv, if_neg hpv, ih]

/-! ## Claims -/

/-- Claim C1: for every input collection and reference map, the enrichment
join emits exactly one output record per input record, in input order — no
record is dropped or duplicated — and a record whose join key is null,
absent, or uncoercible is still emitted with every newly-added reference
field set to null. -/
theorem claim1_enrich_one_per_record :
    ∀ (layer : Layer) (lineRefField : String) (m : RouteMap),
      (enrichFeatures layer lineRefField m).length = layer.features.length
      ∧ (∀ i : ℕ, (enrichFeatures layer lineRefField m)[i]? =
          (layer.features[i]?).map
            (enrichOne layer.fields (newRouteFields layer.fields) lineRefField
              m))
      ∧ (∀ ft : Feature, ∃ extra : List Value,
          (enrichOne layer.fields (newRouteFields layer.fields) lineRefField m
              ft).attrs = ft.attrs ++ extra
          ∧ extra.length = (newRouteFields layer.fields).length)
      ∧ (∀ ft : Feature,
          pyInt? (Feature.get ft layer.fields lineRefField) = none →
          (enrichOne layer.fields (newRouteFields layer.fields) lineRefField m
              ft).attrs =
            ft.attrs ++
              List.replicate (newRouteFields layer.fields).length
                Value.vNull) := by
  intro layer lineRefField m
  refine ⟨by simp [enrichFeatures], ?_, ?_, ?_⟩
  · intro i
    simp [enrichFeatures, List.getElem?_map]
  · intro ft
    exact ⟨_, rfl, by simp⟩
  · intro ft h
    have hnone :
        (if Feature.get ft layer.fields lineRefField = Value.vNull then
            (none : Option Record)
          else
            match pyInt? (Feature.get ft layer.fields lineRefField) with
            | some k => (rmGet m (Value.vInt k)).join
            | none => none) = none := by
      rw [h]
      split <;> rfl
    simp only [enrichOne, hnone, truthyRecord]
    rw [map_const_eq_replicate]

/-- Claim C1 witness: a record whose join key is null is emitted with all
eleven appended fields null. -/
theorem claim1_witness :
    (enrichOne ["a"] (newRouteFields ["a"]) "a" []
        ⟨[Value.vNull], none⟩).attrs =
      [Value.vNull] ++
        List.replicate (newRouteFields ["a"]).length Value.vNull :=
  (claim1_enrich_one_per_record ⟨["a"], []⟩ "a" []).2.2.2
    ⟨[Value.vNull], none⟩ rfl

/-- Claim C3: if the single outbound batch fetch fails, `_fetch_route_data`
catches the failure, maps every presented key to the not-found marker,
surfaces an error description, and the enrichment run still completes with
one output row per input row instead of aborting. -/
theorem claim3_fetch_failure_degrades :
    ∀ (lineRefs : Finset ℤ) (e : String),
      ((fetchRouteData lineRefs (Except.error e)).2 =
        some ("Error fetching route data: " ++ e))
      ∧ (∀ k ∈ lineRefs,
          rmGet (fetchRouteData lineRefs (Except.error e)).1 (Value.vInt k) =
            some none)
      ∧ (∀ (layer : Layer) (f today : String) (res : ExtractResult),
          extractUniqueLineRefsAndDates layer f today = Except.ok res →
          ¬ res.refs = ∅ →
          ∃ out,
            processAlgorithmEnrich layer f (Except.error e) today =
              Except.ok out
            ∧ out.length = layer.features.length) := by
  intro lineRefs e
  refine ⟨rfl, ?_, ?_⟩
  · intro k hk
    have hmem : Value.vInt k ∈ (lineRefs.sort (· ≤ ·)).map Value.vInt :=
      (mem_sortMap_iff lineRefs (Value.vInt k)).mpr ⟨k, hk, rfl⟩
    simp only [fetchRouteData, fetch_data]
    rw [rmGet_rmSetAll, if_pos hmem]
  · intro layer f today res hok hne
    refine ⟨enrichFeatures layer f (fetchRouteData res.refs (Except.error e)).1,
      ?_, by simp [enrichFeatures]⟩
    simp [processAlgorithmEnrich, hok, hne]

/-- Claim C3 witness: with one presented key and a failing fetch, the run
completes with one output row. -/
theorem claim3_witness :
    ∃ out,
      processAlgorithmEnrich ⟨["siri_line_ref"], [⟨[Value.vInt 3], none⟩]⟩
          "siri_line_ref" (Except.error "boom") "2026-01-01" =
        Except.ok out
      ∧ out.length = 1 :=
  (claim3_fetch_failure_degrades ∅ "boom").2.2
    ⟨["siri_line_ref"], [⟨[Value.vInt 3], none⟩]⟩ "siri_line_ref" "2026-01-01"
    ⟨{3}, "2026-01-01", "2026-01-01", [],
      ["No valid dates found in data, using today\x27s date"]⟩
    rfl (by decide)

/-- Claim C4: the joiner computes `route_desc` as the three sub-fields
joined with `-`, substitutes the empty string for a missing sub-field,
never reads `route_desc` from the reference record, and on
`(mkt=5, direction=A, alternative=empty)` yields `5-A-`. -/
theorem claim4_route_desc :
    (∀ (rd : Record) (a b c : String),
        Record.pyGetD rd "route_mkt" (Value.vStr "") = Value.vStr a →
        Record.pyGetD rd "route_direction" (Value.vStr "") = Value.vStr b →
        Record.pyGetD rd "route_alternative" (Value.vStr "") = Value.vStr c →
        routeFieldValue rd "route_desc" =
          Value.vStr (a ++ "-" ++ b ++ "-" ++ c))
    ∧ (∀ rd : Record,
        routeFieldValue rd "route_desc" =
          routeFieldValue (Record.eraseKey rd "route_desc") "route_desc")
    ∧ (routeFieldValue
        [("route_mkt", Value.vStr "5"), ("route_direction", Value.vStr "A"),
         ("route_alternative", Value.vStr ""),
         ("route_desc", Value.vStr "UNUSED")] "route_desc" =
        Value.vStr "5-A-") := by
  refine ⟨?_, ?_, by decide⟩
  · intro rd a b c h1 h2 h3
    simp only [routeFieldValue, if_pos rfl, h1, h2, h3, pyStr]
    simp [String.append_assoc]
  · intro rd
    simp only [routeFieldValue, if_pos rfl]
    rw [pyGetD_eraseKey rd "route_desc" "route_mkt" (by decide),
        pyGetD_eraseKey rd "route_desc" "route_direction" (by decide),
        pyGetD_eraseKey rd "route_desc" "route_alternative" (by decide)]
    simp

/-- Claim C4 witness: a record carrying only `route_mkt` joins with empty
strings for the two absent sub-fields. -/
theorem claim4_witness :
    routeFieldValue [("route_mkt", Value.vStr "7")] "route_desc" =
      Value.vStr ("7" ++ "-" ++ "" ++ "-" ++ "") :=
  claim4_route_desc.1 [("route_mkt", Value.vStr "7")] "7" "" "" rfl rfl rfl

/-- Claim C5: when two or more response records carry the same key, only
the first-seen record is stored in the reference map (first-wins). -/
theorem claim5_first_wins :
    ∀ (lineRefs : Finset ℤ) (data : List Record) (v : Value) (r : Record),
      ¬ data = [] →
      data.find? (fun rec => decide (Record.pyGet rec "line_ref" = some v)) =
        some r →
      rmGet (fetchRouteData lineRefs (Except.ok (JsonTop.jarr data))).1 v =
        some (some r) := by
  intro lineRefs data v r hne hfind
  have hemp : data.isEmpty = false := by
    cases data with
    | nil => exact absurd rfl hne
    | cons x xs => rfl
  simp only [fetchRouteData, fetch_data, hemp, Bool.false_eq_true, if_false,
    reduceIte]
  rw [rmGet_addMissingRefs, rmGet_buildRouteMapFromResponse, hfind]
  rfl

/-- Claim C5 witness: two response records sharing `line_ref = 5` — the
map retains the first. -/
theorem claim5_witness :
    rmGet (fetchRouteData ({5} : Finset ℤ)
        (Except.ok (JsonTop.jarr
          [[("line_ref", Value.vInt 5), ("route_long_name", Value.vStr "first")],
           [("line_ref", Value.vInt 5),
            ("route_long_name", Value.vStr "second")]]))).1
      (Value.vInt 5) =
    some (some
      [("line_ref", Value.vInt 5), ("route_long_name", Value.vStr "first")]) :=
  claim5_first_wins {5}
    [[("line_ref", Value.vInt 5), ("route_long_name", Value.vStr "first")],
     [("line_ref", Value.vInt 5), ("route_long_name", Value.vStr "second")]]
    (Value.vInt 5)
    [("line_ref", Value.vInt 5), ("route_long_name", Value.vStr "first")]
    (by decide) (by decide)

/-- Claim C7: the enrichment output schema is the input schema followed by
the declared extra route fields, appended in declared order and only for
names not already present (so a duplicate-free input schema stays
duplicate-free and the original field order is preserved), and the renamed
fields are read from the reference record under their renamed API keys. -/
theorem claim7_output_schema :
    (∀ fields : List String,
        outputFields fields =
          fields ++ routeFieldNames.filter (fun n => decide (n ∉ fields)))
    ∧ (∀ fields : List String, fields.Nodup → (outputFields fields).Nodup)
    ∧ (∀ fields : List String,
        outputFields fields = fields ++ newRouteFields fields)
    ∧ (∀ rd : Record,
        routeFieldValue rd "siri_line_ref" =
          match Record.pyGet rd "line_ref" with
          | some v => v
          | none => Value.vNull)
    ∧ (∀ rd : Record,
        routeFieldValue rd "siri_operator_ref" =
          match Record.pyGet rd "operator_ref" with
          | some v => v
          | none => Value.vNull) := by
  refine ⟨outputFields_filter, ?_, outputFields_eq_append, ?_, ?_⟩
  · intro fields hnd
    rw [outputFields_filter]
    refine List.Nodup.append hnd (routeFieldNames_nodup.filter _) ?_
    intro a ha hmem
    have := (List.mem_filter.mp hmem).2
    simp only [decide_eq_true_eq] at this
    exact this ha
  · intro rd
    unfold routeFieldValue
    rw [if_neg (by decide),
      show gtfsApiKey "siri_line_ref" = "line_ref" from rfl]
  · intro rd
    unfold routeFieldValue
    rw [if_neg (by decide),
      show gtfsApiKey "siri_operator_ref" = "operator_ref" from rfl]

/-- Claim C7 witness: a duplicate-free two-field input schema yields a
duplicate-free enriched schema. -/
theorem claim7_witness : (outputFields ["a", "route_mkt"]).Nodup :=
  claim7_output_schema.2.1 ["a", "route_mkt"] (by decide)

/-- Claim C8: in the raw fetch path an API item lacking both longitude and
latitude is silently excluded from the output, and the kept records appear
in response order (dropping a block of location-less items splices the
output of the surrounding items unchanged). -/
theorem claim8_drop_locationless :
    (∀ item : Record,
        Record.pyGet item "lon" = none → Record.pyGet item "lat" = none →
        createFeature item = none)
    ∧ (∀ data : List Record,
        processFeatures data = data.filterMap createFeature)
    ∧ (∀ pre mid post : List Record,
        (∀ m ∈ mid, createFeature m = none) →
        processFeatures (pre ++ mid ++ post) =
          processFeatures pre ++ processFeatures post) := by
  refine ⟨?_, fun _ => rfl, ?_⟩
  · intro item h1 _
    simp [createFeature, h1]
  · intro pre mid post hmid
    have hnil : mid.filterMap createFeature = [] :=
      List.filterMap_eq_nil_iff.mpr hmid
    simp [processFeatures, List.filterMap_append, hnil]

/-- Claim C8 witness: an item with neither `lon` nor `lat` is dropped. -/
theorem claim8_witness : createFeature [("bearing", Value.vInt 5)] = none :=
  claim8_drop_locationless.1 [("bearing", Value.vInt 5)] rfl rfl

/-- Claim C10: a response whose body is valid JSON but not a JSON array
makes `fetch_data` return the empty list without raising; the raw fetch
path then reports no output layer instead of aborting, and the enrichment
path maps every requested key to not-found. -/
theorem claim10_nonlist_response :
    (∀ r : Record, fetch_data (Except.ok (JsonTop.jobj r)) = Except.ok [])
    ∧ (∀ v : Value,
        fetch_data (Except.ok (JsonTop.jscalar v)) = Except.ok [])
    ∧ (∀ r : Record,
        getLocationsRun (Except.ok (JsonTop.jobj r)) = Except.ok none)
    ∧ (∀ (lineRefs : Finset ℤ) (r : Record) (k : ℤ), k ∈ lineRefs →
        rmGet (fetchRouteData lineRefs (Except.ok (JsonTop.jobj r))).1
          (Value.vInt k) = some none) := by
  refine ⟨fun _ => rfl, fun _ => rfl, fun _ => rfl, ?_⟩
  intro lineRefs r k hk
  have hmem : Value.vInt k ∈ (lineRefs.sort (· ≤ ·)).map Value.vInt :=
    (mem_sortMap_iff lineRefs (Value.vInt k)).mpr ⟨k, hk, rfl⟩
  simp only [fetchRouteData, fetch_data, List.isEmpty_nil, if_true, reduceIte]
  rw [rmGet_rmSetAll, if_pos hmem]

/-- Claim C10 witness: a JSON-object response leaves the single requested
key mapped to not-found. -/
theorem claim10_witness :
    rmGet (fetchRouteData ({4} : Finset ℤ)
        (Except.ok (JsonTop.jobj []))).1 (Value.vInt 4) = some none :=
  claim10_nonlist_response.2.2.2 {4} [] 4 (by decide)

/-- Claim C2 counterexample: presenting the key set containing only 17
while the response carries a record keyed 99 produces a map whose key set
is not the presented key set — the foreign response key 99 appears. -/
theorem claim2_counterexample :
    ¬ (((fetchRouteData ({17} : Finset ℤ)
          (Except.ok (JsonTop.jarr [[("line_ref", Value.vInt 99)]]))).1.map
            Prod.fst).toFinset =
        ({17} : Finset ℤ).image Value.vInt) := by
  have hs : ({17} : Finset ℤ).sort (· ≤ ·) = [17] := Finset.sort_singleton _ 17
  simp only [fetchRouteData, fetch_data, hs]
  decide

/-- Claim C2 (amended): every presented key is mapped (to a record or the
not-found marker), and every key of the map is either a presented key or
the key of some response record — response records with keys outside the
presented set also enter the map. -/
theorem claim2_keyset_amended :
    ∀ (lineRefs : Finset ℤ) (resp : Except String JsonTop),
      (∀ k ∈ lineRefs,
        (rmGet (fetchRouteData lineRefs resp).1 (Value.vInt k)).isSome = true)
      ∧ (∀ v : Value,
          (rmGet (fetchRouteData lineRefs resp).1 v).isSome = true →
          (∃ k ∈ lineRefs, v = Value.vInt k) ∨
            ∃ data, resp = Except.ok (JsonTop.jarr data) ∧
              ∃ r ∈ data, Record.pyGet r "line_ref" = some v)
      ∧ (∀ data, resp = Except.ok (JsonTop.jarr data) → ¬ data = [] →
          ∀ r ∈ data, ∀ v, Record.pyGet r "line_ref" = some v →
            (rmGet (fetchRouteData lineRefs resp).1 v).isSome = true) := by
  intro lineRefs resp
  have hsetall : ∀ v : Value,
      rmGet (rmSetAll (lineRefs.sort (· ≤ ·)) []) v =
        if v ∈ (lineRefs.sort (· ≤ ·)).map Value.vInt then some none
        else none := by
    intro v
    rw [rmGet_rmSetAll]
    rfl
  match resp with
  | Except.error e =>
    refine ⟨?_, ?_, ?_⟩
    · intro k hk
      have hmem := (mem_sortMap_iff lineRefs (Value.vInt k)).mpr ⟨k, hk, rfl⟩
      simp only [fetchRouteData, fetch_data]
      rw [hsetall, if_pos hmem]
      rfl
    · intro v hv
      simp only [fetchRouteData, fetch_data] at hv
      rw [hsetall] at hv
      by_cases hmem : v ∈ (lineRefs.sort (· ≤ ·)).map Value.vInt
      · exact Or.inl ((mem_sortMap_iff lineRefs v).mp hmem)
      · rw [if_neg hmem] at hv
        exact absurd hv (by simp)
    · intro data hdata
      exact absurd hdata (by simp)
  | Except.ok (JsonTop.jobj r) =>
    refine ⟨?_, ?_, ?_⟩
    · intro k hk
      have hmem := (mem_sortMap_iff lineRefs (Value.vInt k)).mpr ⟨k, hk, rfl⟩
      simp only [fetchRouteData, fetch_data, List.isEmpty_nil, if_true,
        reduceIte]
      rw [hsetall, if_pos hmem]
      rfl
    · intro v hv
      simp only [fetchRouteData, fetch_data, List.isEmpty_nil, if_true,
        reduceIte] at hv
      rw [hsetall] at hv
      by_cases hmem : v ∈ (lineRefs.sort (· ≤ ·)).map Value.vInt
      · exact Or.inl ((mem_sortMap_iff lineRefs v).mp hmem)
      · rw [if_neg hmem] at hv
        exact absurd hv (by simp)
    · intro data hdata
      exact absurd hdata (by simp)
  | Except.ok (JsonTop.jscalar v0) =>
    refine ⟨?_, ?_, ?_⟩
    · intro k hk
      have hmem := (mem_sortMap_iff lineRefs (Value.vInt k)).mpr ⟨k, hk, rfl⟩
      simp only [fetchRouteData, fetch_data, List.isEmpty_nil, if_true,
        reduceIte]
      rw [hsetall, if_pos hmem]
      rfl
    · intro v hv
      simp only [fetchRouteData, fetch_data, List.isEmpty_nil, if_true,
        reduceIte] at hv
      rw [hsetall] at hv
      by_cases hmem : v ∈ (lineRefs.sort (· ≤ ·)).map Value.vInt
      · exact Or.inl ((mem_sortMap_iff lineRefs v).mp hmem)
      · rw [if_neg hmem] at hv
        exact absurd hv (by simp)
    · intro data hdata
      exact absurd hdata (by simp)
  | Except.ok (JsonTop.jarr data) =>
    by_cases hemp : data.isEmpty
    · have hdata : data = [] := List.isEmpty_iff.mp hemp
      subst hdata
      refine ⟨?_, ?_, ?_⟩
      · intro k hk
        have hmem := (mem_sortMap_iff lineRefs (Value.vInt k)).mpr ⟨k, hk, rfl⟩
        simp only [fetchRouteData, fetch_data, List.isEmpty_nil, if_true,
          reduceIte]
        rw [hsetall, if_pos hmem]
        rfl
      · intro v hv
        simp only [fetchRouteData, fetch_data, List.isEmpty_nil, if_true,
          reduceIte] at hv
        rw [hsetall] at hv
        by_cases hmem : v ∈ (lineRefs.sort (· ≤ ·)).map Value.vInt
        · exact Or.inl ((mem_sortMap_iff lineRefs v).mp hmem)
        · rw [if_neg hmem] at hv
          exact absurd hv (by simp)
      · intro data' hdata' hne
        have : data' = ([] : List Record) := by
          injection hdata' with h
          injection h with h2
          exact h2.symm
        exact absurd this hne
    · have hempf : data.isEmpty = false := by
        cases h : data.isEmpty
        · rfl
        · exact absurd h hemp
      have hget : ∀ v : Value,
          rmGet (fetchRouteData lineRefs
              (Except.ok (JsonTop.jarr data))).1 v =
            match data.find?
                (fun r => decide (Record.pyGet r "line_ref" = some v)) with
            | some r => some (some r)
            | none =>
              if v ∈ (lineRefs.sort (· ≤ ·)).map Value.vInt then some none
              else none := by
        intro v
        simp only [fetchRouteData, fetch_data, hempf, Bool.false_eq_true,
          if_false, reduceIte]
        rw [rmGet_addMissingRefs, rmGet_buildRouteMapFromResponse]
        cases data.find? (fun r => decide (Record.pyGet r "line_ref" = some v))
          <;> rfl
      refine ⟨?_, ?_, ?_⟩
      · intro k hk
        have hmem := (mem_sortMap_iff lineRefs (Value.vInt k)).mpr ⟨k, hk, rfl⟩
        rw [hget]
        cases data.find?
            (fun r => decide (Record.pyGet r "line_ref" = some (Value.vInt k)))
        · rw [if_pos hmem]
          rfl
        · rfl
      · intro v hv
        rw [hget] at hv
        cases hfind : data.find?
            (fun r => decide (Record.pyGet r "line_ref" = some v)) with
        | some r =>
          have hr := List.find?_some hfind
          simp only [decide_eq_true_eq] at hr
          exact Or.inr ⟨data, rfl, r, List.mem_of_find?_eq_some hfind, hr⟩
        | none =>
          rw [hfind] at hv
          by_cases hmem : v ∈ (lineRefs.sort (· ≤ ·)).map Value.vInt
          · exact Or.inl ((mem_sortMap_iff lineRefs v).mp hmem)
          · rw [if_neg hmem] at hv
            exact absurd hv (by simp)
      · intro data' hdata' hne r hr v hkey
        have hdd : data' = data := by
          injection hdata' with h
          injection h with h2
          exact h2.symm
        rw [hdd] at hr
        have hex : (data.find?
            (fun rec => decide (Record.pyGet rec "line_ref" = some v))).isSome
            = true := by
          rw [List.find?_isSome]
          exact ⟨r, hr, by simp [hkey]⟩
        obtain ⟨r0, hr0⟩ := Option.isSome_iff_exists.mp hex
        rw [hget, hr0]
        rfl

/-- Claim C2 witness: a presented key is mapped even when the fetch
fails. -/
theorem claim2_witness :
    (rmGet (fetchRouteData ({3} : Finset ℤ) (Except.error "x")).1
      (Value.vInt 3)).isSome = true :=
  (claim2_keyset_amended {3} (Except.error "x")).1 3 (by decide)

/-- Claim C6: the extractor tries the candidate timestamp fields in fixed
order per record (a schema-present non-null `recorded_at` timestamp always
wins), tracks the running minimum and maximum over all records formatted
`YYYY-MM-DD`, falls back to the current date (with a non-fatal note) when
no valid timestamp exists, and on timestamps 2023-01-05, 2023-01-02,
2023-01-09 yields bounds 2023-01-02 and 2023-01-09. -/
theorem claim6_date_range :
    (∀ (fields : List String) (ft : Feature) (i : ℕ) (d : DT),
        indexFromName fields "recorded_at" = some i →
        ft.attrs.getD i Value.vNull = Value.vDT d →
        featureDate fields ft = some d)
    ∧ (∀ (layer : Layer) (f today : String) (res : ExtractResult),
        extractUniqueLineRefsAndDates layer f today = Except.ok res →
        (layer.features.filterMap (featureDate layer.fields) = [] →
          res.dateFrom = today ∧ res.dateTo = today ∧
            res.notes = ["No valid dates found in data, using today\x27s date"])
        ∧ (¬ layer.features.filterMap (featureDate layer.fields) = [] →
          ∃ a b : DT,
            a ∈ layer.features.filterMap (featureDate layer.fields) ∧
            b ∈ layer.features.filterMap (featureDate layer.fields) ∧
            (∀ x ∈ layer.features.filterMap (featureDate layer.fields),
              DT.leb a x = true ∧ DT.leb x b = true) ∧
            res.dateFrom = fmtDate a ∧ res.dateTo = fmtDate b ∧
            res.notes = []))
    ∧ (extractUniqueLineRefsAndDates
        ⟨["siri_line_ref", "recorded_at"],
         [⟨[Value.vInt 7, Value.vDT ⟨2023, 1, 5, 0⟩], none⟩,
          ⟨[Value.vInt 7, Value.vDT ⟨2023, 1, 2, 0⟩], none⟩,
          ⟨[Value.vInt 7, Value.vDT ⟨2023, 1, 9, 0⟩], none⟩]⟩
        "siri_line_ref" "2026-10-12" =
      Except.ok
        { refs := {7}, dateFrom := "2023-01-02", dateTo := "2023-01-09",
          warnings := [], notes := [] }) := by
  refine ⟨?_, ?_, by rfl⟩
  · intro fields ft i d h1 h2
    simp only [featureDate, dateFieldCandidates, List.findSome?_cons, h1, h2]
  · intro layer f today res hok
    unfold extractUniqueLineRefsAndDates at hok
    cases hidx : indexFromName layer.fields f with
    | none => rw [hidx] at hok; exact absurd hok (by simp)
    | some j =>
      rw [hidx] at hok
      obtain ⟨hmin, hmax⟩ := extractFold_dates layer.fields f layer.features
        { refs := ∅, warnings := [], minD := none, maxD := none } [] rfl rfl
      simp only [List.nil_append] at hmin hmax
      cases hm : (layer.features.foldl (extractStep layer.fields f)
          { refs := ∅, warnings := [], minD := none, maxD := none }).minD with
      | none =>
        rw [hm] at hmin
        have hds : layer.features.filterMap (featureDate layer.fields) = [] :=
          hmin
        cases hM : (layer.features.foldl (extractStep layer.fields f)
            { refs := ∅, warnings := [], minD := none, maxD := none }).maxD with
        | some b =>
          rw [hM, hds] at hmax
          exact absurd hmax.1 (List.not_mem_nil b)
        | none =>
          simp only [hm, hM] at hok
          have hres := Except.ok.inj hok
          refine ⟨fun _ => ?_, fun hne => absurd hds hne⟩
          rw [← hres]
          exact ⟨rfl, rfl, rfl⟩
      | some a =>
        rw [hm] at hmin
        cases hM : (layer.features.foldl (extractStep layer.fields f)
            { refs := ∅, warnings := [], minD := none, maxD := none }).maxD with
        | none =>
          rw [hM] at hmax
          rw [hmax] at hmin
          exact absurd hmin.1 (List.not_mem_nil a)
        | some b =>
          rw [hM] at hmax
          simp only [hm, hM] at hok
          have hres := Except.ok.inj hok
          refine ⟨fun hds => ?_, fun _ => ?_⟩
          · rw [hds] at hmin
            exact absurd hmin.1 (List.not_mem_nil a)
          · refine ⟨a, b, hmin.1, hmax.1,
              fun x hx => ⟨hmin.2 x hx, hmax.2 x hx⟩, ?_, ?_, ?_⟩
            · rw [← hres]
            · rw [← hres]
            · rw [← hres]

/-- Claim C6 witness: a schema-present non-null `recorded_at` timestamp is
the one used for its record. -/
theorem claim6_witness :
    featureDate ["recorded_at"] ⟨[Value.vDT ⟨2023, 1, 5, 0⟩], none⟩ =
      some ⟨2023, 1, 5, 0⟩ :=
  claim6_date_range.1 ["recorded_at"] ⟨[Value.vDT ⟨2023, 1, 5, 0⟩], none⟩ 0
    ⟨2023, 1, 5, 0⟩ rfl rfl

/-- Claim C9: an empty extracted key set makes the enrichment run fail
with a fatal error whose result does not depend on any fetch response (so
no fetch is consulted and no output is produced), while a record whose key
fails integer coercion is non-fatal: extraction still succeeds, the
failing key is excluded from the key set, and the failure is reported as a
warning. -/
theorem claim9_empty_keyset_fatal :
    (∀ (layer : Layer) (f today : String) (res : ExtractResult)
        (resp : Except String JsonTop),
        extractUniqueLineRefsAndDates layer f today = Except.ok res →
        res.refs = ∅ →
        processAlgorithmEnrich layer f resp today =
          Except.error "No valid line references found in the input layer")
    ∧ (∀ (layer : Layer) (f today : String) (j : ℕ),
        indexFromName layer.fields f = some j →
        ∃ res, extractUniqueLineRefsAndDates layer f today = Except.ok res
          ∧ (∀ x : ℤ, x ∈ res.refs ↔
              ∃ ft ∈ layer.features, extractKey layer.fields f ft = some x)
          ∧ res.warnings =
              layer.features.filterMap (extractWarn layer.fields f)) := by
  constructor
  · intro layer f today res resp hok hempty
    simp [processAlgorithmEnrich, hok, hempty]
  · intro layer f today j hidx
    have hrefs : ∀ x : ℤ,
        x ∈ (layer.features.foldl (extractStep layer.fields f)
            { refs := ∅, warnings := [], minD := none, maxD := none }).refs ↔
          ∃ ft ∈ layer.features, extractKey layer.fields f ft = some x := by
      intro x
      rw [extractFold_refs_mem]
      simp
    have hwarn :
        (layer.features.foldl (extractStep layer.fields f)
            { refs := ∅, warnings := [], minD := none, maxD := none }).warnings
          = layer.features.filterMap (extractWarn layer.fields f) := by
      rw [extractFold_warnings]
      rfl
    unfold extractUniqueLineRefsAndDates
    rw [hidx]
    cases hm : (layer.features.foldl (extractStep layer.fields f)
        { refs := ∅, warnings := [], minD := none, maxD := none }).minD with
    | none =>
      refine ⟨_, by simp only [hm]; rfl, ?_, ?_⟩
      · intro x
        exact hrefs x
      · exact hwarn
    | some a =>
      cases hM : (layer.features.foldl (extractStep layer.fields f)
          { refs := ∅, warnings := [], minD := none, maxD := none }).maxD with
      | none =>
        refine ⟨_, by simp only [hm, hM]; rfl, ?_, ?_⟩
        · intro x
          exact hrefs x
        · exact hwarn
      | some b =>
        refine ⟨_, by simp only [hm, hM]; rfl, ?_, ?_⟩
        · intro x
          exact hrefs x
        · exact hwarn

/-- Claim C9 witness: a layer whose only record has a null key extracts an
empty key set and the run aborts with the fatal message, for any fetch
response. -/
theorem claim9_witness :
    processAlgorithmEnrich ⟨["siri_line_ref"], [⟨[Value.vNull], none⟩]⟩
        "siri_line_ref" (Except.error "never-fetched") "2026-01-01" =
      Except.error "No valid line references found in the input layer" :=
  claim9_empty_keyset_fatal.1 ⟨["siri_line_ref"], [⟨[Value.vNull], none⟩]⟩
    "siri_line_ref" "2026-01-01"
    ⟨∅, "2026-01-01", "2026-01-01", [],
      ["No valid dates found in data, using today\x27s date"]⟩
    (Except.error "never-fetched") rfl rfl
